import Mathlib

/-!
Verification of the data-preparation core of `app_4plots.py` (Seoul rental
dashboard).  Each Python fragment named in the claims is embedded as an
executable Lean definition; numeric cells are rationals (pandas floats carry
exact decimal inputs here), missing values are `Option`.
-/

/-! ## String utilities shared by the loader and the Q-Q search -/

/-- Python `str.replace(",", "")`: remove every comma (used before numeric
parsing, `app_4plots.py` lines 77-81). -/
def stripCommas (s : String) : String :=
  String.mk (s.toList.filter (fun c => c ≠ ','))

/-- Substring test at the head: does `needle` start `hay`? -/
def listStartsWith (needle hay : List Char) : Bool :=
  match needle, hay with
  | [], _ => true
  | _ :: _, [] => false
  | n :: ns, h :: hs => n == h && listStartsWith ns hs

/-- Python `needle in hay` over char lists: `needle` occurs contiguously. -/
def listHasSub (needle : List Char) : List Char → Bool
  | [] => listStartsWith needle []
  | c :: cs => listStartsWith needle (c :: cs) || listHasSub needle cs

/-- Python substring containment `sub in s` / literal `Series.str.contains`. -/
def strContains (s sub : String) : Bool :=
  listHasSub sub.toList s.toList

/-- Python `str.lower()` (per character; enough for the ASCII-insensitive
matching of `str.contains(case=False)`). -/
def toLowerStr (s : String) : String :=
  String.mk (s.toList.map Char.toLower)

/-! ## Numeric coercion (`app_4plots.py` lines 75-82)

`pd.to_numeric(tmp[col].astype(str).str.replace(",",""), errors="coerce")`:
stringified cells, commas stripped, parsed as a decimal number, with
unparseable text becoming null.  The parser below covers the decimal
fragment (optional sign, digits, optional fractional part) that the data
files use. -/

/-- Digits to a natural number, most significant first. -/
def natFromDigits (cs : List Char) : ℕ :=
  cs.foldl (fun n c => n * 10 + (c.toNat - '0'.toNat)) 0

/-- Parse an unsigned decimal numeral `digits[.digits]` (at least one digit
overall), as `pd.to_numeric` accepts; anything else is unparseable. -/
def parseUnsigned (cs : List Char) : Option ℚ :=
  let intPart := cs.takeWhile Char.isDigit
  let rest := cs.dropWhile Char.isDigit
  match rest with
  | [] =>
      if intPart.isEmpty then none
      else some ((natFromDigits intPart : ℤ) : ℚ)
  | '.' :: frac =>
      if frac.all Char.isDigit ∧ ¬(intPart.isEmpty ∧ frac.isEmpty) then
        some ((natFromDigits intPart : ℚ) +
          (natFromDigits frac : ℚ) / ((10 : ℚ) ^ frac.length))
      else none
  | _ => none

/-- Parse a signed decimal numeral; `none` models NaN from
`errors="coerce"`. -/
def parseNum (s : String) : Option ℚ :=
  match s.toList with
  | '-' :: rest => (parseUnsigned rest).map (fun q => -q)
  | '+' :: rest => parseUnsigned rest
  | cs => parseUnsigned cs

/-- One cell of a raw column: text, an already-numeric value, or null. -/
inductive Val where
  | str (s : String)
  | num (q : ℚ)
  | null
  deriving DecidableEq, Repr

/-- The loader's coercion of one cell: `astype(str)` then comma strip then
`to_numeric(errors="coerce")`.  A numeric cell is unchanged because Python 3
`str(float)` is exact (shortest round-trip repr), so stringify-then-parse is
the identity on it; a null cell stringifies to `"nan"` which `to_numeric`
turns back into NaN. -/
def coerceVal : Val → Val
  | .str s =>
      match parseNum (stripCommas s) with
      | some q => .num q
      | none => .null
  | .num q => .num q
  | .null => .null

/-! ## Loader row model (`load_data`, `app_4plots.py` lines 45-111)

A source file is one of the per-housing-type CSVs that exist on disk
(missing files are skipped with a warning, i.e. simply absent from the
list).  Column presence is per file; raw cells are the CSV strings. -/

/-- One raw CSV row.  Fields are meaningful only when the owning file's
presence flag for that column is set. -/
structure SrcRow where
  htypeRaw : String
  sigunguRaw : String
  guRaw : String
  depositRaw : String
  rentRaw : String
  yearRaw : String
  deriving DecidableEq, Repr

/-- One source file: its housing-type label (the dict key), which of the
relevant columns it has, and its rows. -/
structure SrcFile where
  label : String
  hasHtype : Bool
  hasSigungu : Bool
  hasGu : Bool
  hasDeposit : Bool
  hasRent : Bool
  hasYear : Bool
  rows : List SrcRow
  deriving DecidableEq, Repr

/-- A row of the unified table after `load_data`'s cleaning and the
`keep_cols` projection. -/
structure Row where
  htype : String
  sigungu : Option String
  gu : Option String
  deposit : Option ℚ
  rent : Option ℚ
  year : Option ℚ
  deriving DecidableEq, Repr

/-- Split a character list into maximal runs of non-space characters, as
Python `str.split()` (with space separators) does; `acc` holds the current
token reversed. -/
def tokensAux (acc : List Char) : List Char → List (List Char)
  | [] => if acc.isEmpty then [] else [acc.reverse]
  | c :: cs =>
      if c = ' ' then
        if acc.isEmpty then tokensAux [] cs
        else acc.reverse :: tokensAux [] cs
      else tokensAux (c :: acc) cs

/-- Python `s.split()[1]`: second whitespace-delimited token of the raw
address, used to derive the district column (lines 70-72); `none` when the
address has fewer than two tokens. -/
def secondToken (s : String) : Option String :=
  ((tokensAux [] s.toList).map String.mk).get? 1

/-- The coercion of one raw text cell to a numeric cell,
`to_numeric(astype(str).replace(",",...), errors="coerce")`. -/
def coerceCell (s : String) : Option ℚ :=
  parseNum (stripCommas s)

/-- Cleaning of one source file (lines 63-92): assign the housing-type
label when the column is missing, derive the district from the address when
missing, coerce the numeric columns, keep Seoul rows (when the address
column exists), keep rows with positive rent (when the rent column
exists). -/
def processFile (f : SrcFile) : List Row :=
  let mapped : List Row := f.rows.map (fun r =>
    { htype := if f.hasHtype then r.htypeRaw else f.label
      sigungu := if f.hasSigungu then some r.sigunguRaw else none
      gu := if f.hasGu then some r.guRaw
            else if f.hasSigungu then secondToken r.sigunguRaw else none
      deposit := if f.hasDeposit then coerceCell r.depositRaw else none
      rent := if f.hasRent then coerceCell r.rentRaw else none
      year := if f.hasYear then coerceCell r.yearRaw else none })
  let seoulOnly : List Row :=
    if f.hasSigungu then
      mapped.filter (fun r => strContains (r.sigungu.getD "") "서울")
    else mapped
  if f.hasRent then
    seoulOnly.filter (fun r =>
      match r.rent with
      | some q => decide (0 < q)
      | none => false)
  else seoulOnly

/-- Rows of the unified table: concatenation of the cleaned per-type tables
(line 97).  The `keep_cols` projection (lines 99-109) drops columns, never
rows, so row contents over the kept columns are unchanged. -/
def load_data_rows (files : List SrcFile) : List Row :=
  (files.map processFile).flatten

/-! ## Loader column pipeline (`keep_cols`, lines 99-109) -/

/-- The fixed allowed column set of the final projection. -/
def keep_cols : List String :=
  ["주택유형", "시군구", "구", "보증금(만원)", "월세금(만원)", "건축년도"]

/-- Columns of one per-file table after cleaning: the housing-type column
is added when absent (lines 66-67), the district column is added when
absent but derivable from the address (lines 70-72). -/
def processedCols (cols : List String) : List String :=
  let c1 := if "주택유형" ∈ cols then cols else cols ++ ["주택유형"]
  if "구" ∈ c1 then c1
  else if "시군구" ∈ c1 then c1 ++ ["구"]
  else c1

/-- Columns of the table returned by `load_data`: the union of the per-file
columns (outer concat, line 97), projected to the members of `keep_cols`
that actually occur (lines 100-109). -/
def load_data_cols (files : List (List String)) : List String :=
  let u := (files.map processedCols).flatten
  keep_cols.filter (fun c => c ∈ u)

/-- The box-plot tab's rent-measure choice (lines 258-266): per-area rent
first, then raw rent, else nothing usable. -/
def boxRentCol (cols : List String) : Option String :=
  if "전용면적당 월세(만원/㎡)" ∈ cols then some "전용면적당 월세(만원/㎡)"
  else if "월세금(만원)" ∈ cols then some "월세금(만원)"
  else none

/-- The Q-Q tab's listing-name column lookup (lines 465-469). -/
def qqBuildingCol (cols : List String) : Option String :=
  if "단지명" ∈ cols then some "단지명"
  else if "건물명" ∈ cols then some "건물명"
  else none

/-! ## Subset builder (lines 129-156) -/

/-- Housing-type filter: `"전체"` keeps everything, otherwise exact match
(lines 129-132). -/
def housingFilter (sel : String) (rows : List Row) : List Row :=
  if sel = "전체" then rows else rows.filter (fun r => r.htype == sel)

/-- District subset `df_filtered[df_filtered["구"] == g]` (lines 155-156);
pandas `NaN == g` is false, matching the `Option` equality. -/
def districtSubset (rows : List Row) (g : String) : List Row :=
  rows.filter (fun r => r.gu == some g)

/-! ## Histogram preparer (`tab_hist`, lines 168-240) -/

/-- Insert into a sorted list (ascending). -/
def insertSorted (x : ℚ) : List ℚ → List ℚ
  | [] => [x]
  | y :: ys => if x ≤ y then x :: y :: ys else y :: insertSorted x ys

/-- Ascending sort, as `np.percentile` sorts its input internally. -/
def sortQ (xs : List ℚ) : List ℚ :=
  xs.foldr insertSorted []

/-- `np.percentile(xs, p)` with the default linear interpolation: with the
values sorted ascending and `h = p/100 * (n-1)`, interpolate linearly
between the order statistics at `⌊h⌋` and `⌊h⌋ + 1`. -/
def npPercentile (xs : List ℚ) (p : ℚ) : ℚ :=
  let s := sortQ xs
  let n := s.length
  let h := p / 100 * ((n : ℚ) - 1)
  let lo := (⌊h⌋).toNat
  let x0 := s.getD lo 0
  let x1 := s.getD (lo + 1) x0
  x0 + (h - (⌊h⌋ : ℚ)) * (x1 - x0)

/-- A subset's non-missing positive rents (`dropna()` then `> 0`). -/
def posRents (rows : List Row) : List ℚ :=
  (rows.filterMap Row.rent).filter (fun q => 0 < q)

/-- The shared x-axis upper bound of the histogram tab (lines 183-195):
concatenate the three subsets' non-missing rents, drop non-positive values,
and take the 99th percentile; `none` models the empty-data warning branch
(lines 192-193). -/
def histXmax (seoul a b : List Row) : Option ℚ :=
  let allRent :=
    ((seoul.filterMap Row.rent) ++ (a.filterMap Row.rent) ++
      (b.filterMap Row.rent)).filter (fun q => 0 < q)
  if allRent.isEmpty then none else some (npPercentile allRent 99)

/-- Modelled from the spec: "a shared upper bound = the 99th percentile of
the union of all three subsets' positive rents".  The district subsets are
contained in the all-of-Seoul subset, so the union of the three row sets is
the all-of-Seoul subset and its positive rents are `posRents seoul`. -/
def histXmaxUnionSpec (seoul : List Row) : Option ℚ :=
  if (posRents seoul).isEmpty then none
  else some (npPercentile (posRents seoul) 99)

/-- What one histogram panel does with its subset (lines 197-228). -/
inductive HistPanel where
  | placeholder
  | drawn (data : List ℚ)
  deriving DecidableEq, Repr

/-- One panel's data after `dropna()` and the positive filter
(lines 199-200). -/
def posOf (rents : List (Option ℚ)) : List ℚ :=
  (rents.filterMap id).filter (fun q => 0 < q)

/-- One panel of the histogram tab: drop missing and non-positive rents; if
nothing is left, show the "no data" placeholder (lines 202-212); otherwise
clip at the shared bound (line 215) and draw the clipped data. -/
def histPanel (rents : List (Option ℚ)) (xmax : ℚ) : HistPanel :=
  if (posOf rents).isEmpty then .placeholder
  else .drawn ((posOf rents).filter (fun q => q ≤ xmax))

/-- A subset's retained data after the positive filter and the clip at the
shared bound — the series the weights and bars are computed from. -/
def posClip (rents : List (Option ℚ)) (xmax : ℚ) : List ℚ :=
  (posOf rents).filter (fun q => q ≤ xmax)

/-- The per-observation weights `np.ones_like(data)/len(data)*100`
(line 219). -/
def histWeights (data : List ℚ) : List ℚ :=
  data.map (fun _ => 1 / (data.length : ℚ) * 100)

/-- The bin an observation falls into for `hist(..., bins, range=(0, xmax))`:
equal-width bins over `[0, xmax]`, index `⌊x/xmax * bins⌋` clamped so the
right edge lands in the last bin. -/
def binIdx (xmax : ℚ) (bins : ℕ) (x : ℚ) : ℕ :=
  min (bins - 1) (⌊x / xmax * (bins : ℚ)⌋).toNat

/-- The height of bar `i`: the sum of the weights of the observations whose
value falls in bin `i` (what `ax.hist` does with a `weights` array). -/
def binHeight (data : List ℚ) (xmax : ℚ) (bins i : ℕ) : ℚ :=
  ((((data.zip (histWeights data)).filter
      (fun p => binIdx xmax bins p.1 == i)).map (fun p => p.2))).sum

/-! ## Box-plot tab control flow and age grouping (`tab_box`, lines 250-299) -/

/-- The fate of the box-plot tab for a given unified table. -/
inductive BoxTabOutcome where
  | disabledNoYear
  | disabledNoYearData
  | halted
  | renders (rentCol : String)
  deriving DecidableEq, Repr

/-- Control flow of `tab_box` (lines 254-299): no construction-year column
disables just this plot (lines 254-255); otherwise the rent measure is
chosen, and when neither rent column exists the tab warns and calls
`st.stop()` (lines 265-266), which halts the whole script run; an empty
construction-year column again only disables this plot (lines 268-270). -/
def boxTabOutcome (cols : List String) (years : List (Option ℚ)) : BoxTabOutcome :=
  if "건축년도" ∈ cols then
    match boxRentCol cols with
    | none => .halted
    | some c =>
        if (years.filterMap id).isEmpty then .disabledNoYearData
        else .renders c
  else .disabledNoYear

/-- Rows usable for the age grouping: both the construction year and the
chosen rent measure present (`dropna(subset=[...])`, line 282). -/
def retainedRows (rentOf : Row → Option ℚ) (rows : List Row) : List Row :=
  rows.filter (fun r => r.year.isSome && (rentOf r).isSome)

/-- `add_age_group` (lines 280-289): on the retained rows, age
`연식 = current_year - 건축년도` and group
`np.where(연식 <= 20, "신·중축", "구축")`.  Output: row, age, group. -/
def add_age_group (currentYear : ℚ) (rentOf : Row → Option ℚ)
    (rows : List Row) : List (Row × ℚ × String) :=
  (retainedRows rentOf rows).map (fun r =>
    let age := currentYear - r.year.getD 0
    (r, age, if age ≤ 20 then "신·중축" else "구축"))

/-! ## Scatter preparer (`prep_scatter`, lines 419-424) -/

/-- The scatter tab's row filter: deposit and rent both present
(`dropna`) and both positive (lines 420-421). -/
def scatterFiltered (rows : List Row) : List Row :=
  (rows.filter (fun r => r.deposit.isSome && r.rent.isSome)).filter
    (fun r =>
      (match r.deposit with
       | some q => decide (0 < q)
       | none => false) &&
      (match r.rent with
       | some q => decide (0 < q)
       | none => false))

/-- Modelled from the spec: pandas `DataFrame.sample(n, random_state=…)`
is a deterministic function of the data, `n` and the seed, drawing exactly
`n` distinct rows (uniform without replacement); with `random_state=None`
it would instead draw from fresh process entropy.  The numpy bit-generator
itself is library code, modelled here as a seeded rotation; what matters
for the claims is determinism in the seed and the exact sample size. -/
def pdSample (randomState : Option ℕ) (entropy : ℕ) (n : ℕ)
    (xs : List Row) : List Row :=
  let seed := randomState.getD entropy
  let rot := seed % (xs.length + 1)
  (xs.drop rot ++ xs.take rot).take n

/-- `prep_scatter` (lines 419-424): filter, then sample down to
`max_points` rows with the constant seed 42 whenever the retained count
exceeds the cap.  `entropy` stands for the per-run randomness an unseeded
sampler would consume; the code pins `random_state=42`. -/
def prep_scatter (entropy : ℕ) (maxPoints : ℕ) (rows : List Row) : List Row :=
  let d := scatterFiltered rows
  if maxPoints < d.length then pdSample (some 42) entropy maxPoints d else d

/-! ## Q-Q highlight search (`find_idx`, lines 480-488) -/

/-- Python `Series.astype(str)` on one cell: a missing value becomes the
literal string `"nan"`. -/
def pyStr : Option String → String
  | some s => s
  | none => "nan"

/-- Matching of a regex pattern made of literal characters and the
metacharacter `.` (any single character) against a prefix of the text —
the fragment of Python `re` semantics exercised below.  `str.contains`
treats its argument as a regular expression by default. -/
def dotMatchAt : List Char → List Char → Bool
  | [], _ => true
  | _ :: _, [] => false
  | p :: ps, c :: cs => (p == '.' || p == c) && dotMatchAt ps cs

/-- Regex search (match at any position), for literal-plus-dot patterns. -/
def dotSearch (pat : List Char) : List Char → Bool
  | [] => dotMatchAt pat []
  | c :: cs => dotMatchAt pat (c :: cs) || dotSearch pat cs

/-- `find_idx` (lines 480-488): an empty query matches nothing; otherwise
`astype(str).str.contains(query, case=False, na=False)` — the names are
stringified (missing → `"nan"`, making `na=False` moot), lowercased, and
searched with the query as a REGEX; the matching row indices are
returned. -/
def find_idx (names : List (Option String)) (query : String) : List ℕ :=
  if query = "" then []
  else ((names.enum).filter (fun p =>
    dotSearch (toLowerStr query).toList (toLowerStr (pyStr p.2)).toList)).map
      (fun p => p.1)

/-- Modelled from the spec: "case-insensitive, substring match against a
listing-name column", rows with a missing name never matching. -/
def findIdxSubstr (names : List (Option String)) (query : String) : List ℕ :=
  if query = "" then []
  else ((names.enum).filter (fun p =>
    match p.2 with
    | some s => strContains (toLowerStr s) (toLowerStr query)
    | none => false)).map (fun p => p.1)

/-! ## Concrete tables used by counterexamples and witnesses -/

/-- A minimal Seoul row with a district and a rent, as `load_data` would
produce it. -/
def rowMk (g : String) (r : ℚ) : Row :=
  { htype := "아파트", sigungu := some "서울특별시 테스트구 동", gu := some g,
    deposit := none, rent := some r, year := none }

/-- Three rows in three districts with rents 1, 2 and 100. -/
def df3 : List Row :=
  [rowMk "종로구" 1, rowMk "중구" 2, rowMk "관악구" 100]

/-- A 100-row table: 98 rent-1 rows in one district, one rent-1 row in a
second district, one rent-100 row in a third. -/
def df102 : List Row :=
  List.replicate 98 (rowMk "종로구" 1) ++ [rowMk "중구" 1, rowMk "관악구" 100]

/-- A row with construction year 1990 and rent 50. -/
def r1990 : Row :=
  { htype := "아파트", sigungu := none, gu := none, deposit := none,
    rent := some 50, year := some 1990 }

/-- A single source file with one Seoul row of rent 50, address and rent
columns present. -/
def srcFile0 : SrcFile :=
  { label := "아파트", hasHtype := false, hasSigungu := true, hasGu := false,
    hasDeposit := false, hasRent := true, hasYear := false,
    rows := [{ htypeRaw := "", sigunguRaw := "서울특별시 관악구 봉천동",
               guRaw := "", depositRaw := "", rentRaw := "50", yearRaw := "" }] }

/-- The row `srcFile0` loads to. -/
def row0 : Row :=
  { htype := "아파트", sigungu := some "서울특별시 관악구 봉천동",
    gu := some "관악구", deposit := none, rent := some 50, year := none }

/-! ## Helper lemmas -/

/-- Evaluate `npPercentile` from its sorted list, length, floor index and
order statistics. -/
lemma npPercentile_eval (xs S : List ℚ) (p : ℚ) (n l : ℕ) (x0 x1 v : ℚ)
    (hS : sortQ xs = S) (hn : S.length = n)
    (hfl : ⌊p / 100 * ((n : ℚ) - 1)⌋ = (l : ℤ))
    (h0 : S.getD l 0 = x0) (h1 : S.getD (l + 1) x0 = x1)
    (hv : x0 + (p / 100 * ((n : ℚ) - 1) - ((l : ℤ) : ℚ)) * (x1 - x0) = v) :
    npPercentile xs p = v := by
  simp only [npPercentile, hS, hn, hfl, Int.toNat_natCast, h0, h1]
  exact hv

/-- Zipping a list with a constant-valued map of itself pairs every element
with the constant. -/
lemma zip_self_const (l : List ℚ) (c : ℚ) :
    l.zip (l.map fun _ => c) = l.map (fun x => (x, c)) := by
  induction l with
  | nil => rfl
  | cons x xs ih => simp only [List.map_cons, List.zip_cons_cons, ih]

/-- Summing the constant second components over a filtered pairing counts
the matching elements. -/
lemma sum_snd_filter_const (q : ℚ → Bool) (c : ℚ) (l : List ℚ) :
    ((((l.map (fun x => (x, c))).filter (fun p => q p.1)).map
        (fun p => p.2))).sum
      = ((l.filter q).length : ℚ) * c := by
  induction l with
  | nil => simp
  | cons x xs ih =>
    by_cases hx : q x
    · simp only [List.map_cons, List.filter_cons, hx, if_true, List.map_cons,
        List.sum_cons, ih, List.length_cons]
      push_cast
      ring
    · simp [List.filter_cons, hx, ih]

/-- A bar's height is the in-bin count times the constant per-observation
weight. -/
lemma binHeight_count (data : List ℚ) (xmax : ℚ) (bins i : ℕ) :
    binHeight data xmax bins i =
      ((data.filter (fun x => binIdx xmax bins x == i)).length : ℚ)
        * (1 / (data.length : ℚ) * 100) := by
  simp only [binHeight, histWeights, zip_self_const]
  exact sum_snd_filter_const (fun x => binIdx xmax bins x == i) _ data

/-- Every observation lands in a bin index below `bins`. -/
lemma binIdx_lt (xmax : ℚ) (bins : ℕ) (hb : 1 ≤ bins) (x : ℚ) :
    binIdx xmax bins x < bins :=
  lt_of_le_of_lt (min_le_left _ _) (Nat.sub_lt hb one_pos)

/-- Binning by any index function below `B` partitions the list: the in-bin
counts sum to the length. -/
lemma sum_count_bins (f : ℚ → ℕ) (B : ℕ) (l : List ℚ)
    (h : ∀ x ∈ l, f x < B) :
    (∑ i in Finset.range B, (l.filter (fun x => f x == i)).length)
      = l.length := by
  induction l with
  | nil => simp
  | cons x xs ih =>
    have hx : f x < B := h x (List.mem_cons_self x xs)
    have hxs : ∀ y ∈ xs, f y < B := fun y hy => h y (List.mem_cons_of_mem _ hy)
    have hsplit : ∀ i, ((x :: xs).filter (fun y => f y == i)).length
        = (if f x = i then 1 else 0) + (xs.filter (fun y => f y == i)).length := by
      intro i
      by_cases hfi : f x = i <;> simp [List.filter_cons, hfi] <;> omega
    rw [Finset.sum_congr rfl (fun i _ => hsplit i), Finset.sum_add_distrib,
      ih hxs, Finset.sum_ite_eq (Finset.range B) (f x) (fun _ => 1)]
    simp [hx, Nat.add_comm]

/-- Splitting a list's count over two mutually exclusive, jointly exhaustive
predicates recovers its length. -/
lemma countP_split {α : Type} (p q : α → Bool) (l : List α)
    (h : ∀ a ∈ l, (p a = true ∧ q a = false) ∨ (p a = false ∧ q a = true)) :
    l.countP p + l.countP q = l.length := by
  induction l with
  | nil => rfl
  | cons a as ih =>
    have has : ∀ b ∈ as, (p b = true ∧ q b = false) ∨ (p b = false ∧ q b = true) :=
      fun b hb => h b (List.mem_cons_of_mem _ hb)
    rcases h a (List.mem_cons_self a as) with ⟨h1, h2⟩ | ⟨h1, h2⟩ <;>
      simp [List.countP_cons, h1, h2, ← ih has] <;> omega

/-! ## Claims -/

/-- C1 (amended): with a construction-year column but neither rent-measure
column, `tab_box` warns and then calls `st.stop()`, halting the whole
script run — a third hard stop besides the empty-table and
fewer-than-two-districts stops; only a missing construction-year column
merely disables the box plot while the script continues. -/
theorem boxTab_no_rent_col_stops (cols : List String)
    (years : List (Option ℚ)) :
    ("건축년도" ∈ cols → "전용면적당 월세(만원/㎡)" ∉ cols →
      "월세금(만원)" ∉ cols →
      boxTabOutcome cols years = BoxTabOutcome.halted)
    ∧ ("건축년도" ∉ cols →
      boxTabOutcome cols years = BoxTabOutcome.disabledNoYear) := by
  constructor
  · intro h1 h2 h3
    simp [boxTabOutcome, boxRentCol, h1, h2, h3]
  · intro h1
    simp [boxTabOutcome, h1]

/-- C1 witness: both branches at concrete column sets. -/
theorem boxTab_no_rent_col_stops_witness :
    ("건축년도" ∈ (["건축년도"] : List String)
      ∧ "전용면적당 월세(만원/㎡)" ∉ (["건축년도"] : List String)
      ∧ "월세금(만원)" ∉ (["건축년도"] : List String)
      ∧ boxTabOutcome ["건축년도"] [] = BoxTabOutcome.halted)
    ∧ ("건축년도" ∉ ([] : List String)
      ∧ boxTabOutcome [] [] = BoxTabOutcome.disabledNoYear) :=
  ⟨⟨by decide, by decide, by decide,
    (boxTab_no_rent_col_stops ["건축년도"] []).1 (by decide) (by decide)
      (by decide)⟩,
   ⟨by decide, (boxTab_no_rent_col_stops [] []).2 (by decide)⟩⟩

/-- C1 counterexample: a table whose columns are exactly `["건축년도"]`
(construction year present, no rent column) makes `tab_box` halt the whole
script, contradicting the claim that only the empty-table and
fewer-than-two-districts conditions are fatal stops. -/
theorem boxTab_no_rent_col_claim_refuted :
    "건축년도" ∈ (["건축년도"] : List String)
    ∧ "전용면적당 월세(만원/㎡)" ∉ (["건축년도"] : List String)
    ∧ "월세금(만원)" ∉ (["건축년도"] : List String)
    ∧ boxTabOutcome ["건축년도"] [] = BoxTabOutcome.halted := by
  refine ⟨by decide, by decide, by decide, ?_⟩
  decide

/-- C2 (amended): the histogram tab's shared upper bound is the 99th
percentile of the CONCATENATION of the three subsets' positive rents — the
district-A and district-B rows are counted a second time on top of their
occurrence inside the all-of-Seoul subset (a multiset sum, not a
deduplicated union). -/
theorem hist_x_max_concat_of_subsets (s a b : List Row) :
    histXmax s a b =
      if (posRents s ++ posRents a ++ posRents b).isEmpty then none
      else some (npPercentile (posRents s ++ posRents a ++ posRents b) 99) := by
  simp only [histXmax, posRents, List.filter_append]

/-- C2 counterexample: on a three-row table with rents 1, 2, 100 and the
district subsets holding the rent-100 and the rent-2 row, the code's bound
is 100 (duplicated district values pull the percentile up) while the 99th
percentile of the union of the three subsets' positive rents — the
district rows being contained in the all-of-Seoul subset — is 2451/25
= 98.04. -/
theorem hist_x_max_union_claim_refuted :
    histXmax df3 (districtSubset df3 "관악구") (districtSubset df3 "중구")
        = some 100
    ∧ histXmaxUnionSpec df3 = some (2451 / 25)
    ∧ histXmax df3 (districtSubset df3 "관악구") (districtSubset df3 "중구")
        ≠ histXmaxUnionSpec df3 := by
  have hlist : (((df3.filterMap Row.rent) ++
      ((districtSubset df3 "관악구").filterMap Row.rent) ++
      ((districtSubset df3 "중구").filterMap Row.rent)).filter
        (fun q => 0 < q)) = [1, 2, 100, 100, 2] := by decide
  have hp1 : npPercentile [1, 2, 100, 100, 2] 99 = 100 := by
    refine npPercentile_eval _ [1, 2, 2, 100, 100] 99 5 3 100 100 100
      (by decide) (by decide) ?_ (by decide) (by decide) ?_
    · rw [Int.floor_eq_iff] <;> norm_num
    · norm_num
  have hspec : posRents df3 = [1, 2, 100] := by decide
  have hp2 : npPercentile [1, 2, 100] 99 = 2451 / 25 := by
    refine npPercentile_eval _ [1, 2, 100] 99 3 1 2 100 (2451 / 25)
      (by decide) (by decide) ?_ (by decide) (by decide) ?_
    · rw [Int.floor_eq_iff] <;> norm_num
    · norm_num
  have h1 : histXmax df3 (districtSubset df3 "관악구")
      (districtSubset df3 "중구") = some 100 := by
    simp only [histXmax, hlist, hp1]
    rfl
  have h2 : histXmaxUnionSpec df3 = some (2451 / 25) := by
    simp only [histXmaxUnionSpec, hspec, hp2]
    rfl
  refine ⟨h1, h2, ?_⟩
  rw [h1, h2]
  intro h
  have := Option.some.inj h
  norm_num at this

/-- C8 (code defect evaluated): `find_idx` feeds the free-text query to
`Series.str.contains` whose default is REGEX matching, after `astype(str)`
has turned missing names into the literal string `"nan"`.  With query `"."`
every row matches — including the missing-name row — whereas the
documented rule (case-insensitive literal substring, missing names never
match) matches nothing. -/
theorem find_idx_regex_divergence :
    find_idx [some "abc", none] "." = [0, 1]
    ∧ findIdxSubstr [some "abc", none] "." = []
    ∧ find_idx [some "abc", none] "." ≠ findIdxSubstr [some "abc", none] "." := by
  refine ⟨by decide, by decide, by decide⟩

/-- C10: the loader's cell coercion is idempotent (numeric and null cells
are fixed points, text collapses to a numeric or null fixed point), is
insensitive to thousands-separator commas, and sends both "1,200" and
"1200" to the number 1200. -/
theorem coerce_idempotent_comma_invariant :
    (∀ v : Val, coerceVal (coerceVal v) = coerceVal v)
    ∧ (∀ s : String, coerceVal (.str (stripCommas s)) = coerceVal (.str s))
    ∧ coerceVal (.str "1,200") = .num 1200
    ∧ coerceVal (.str "1200") = .num 1200 := by
  refine ⟨?_, ?_, ?_, ?_⟩
  · intro v
    cases v with
    | str s =>
        cases h : parseNum (stripCommas s) with
        | none => simp [coerceVal, h]
        | some q => simp [coerceVal, h]
    | num q => rfl
    | null => rfl
  · intro s
    have hstrip : stripCommas (stripCommas s) = stripCommas s := by
      simp [stripCommas, List.filter_filter]
    simp only [coerceVal, hstrip]
  · decide
  · decide

/-- C3: whatever columns the source files bring, the unified table's
columns lie in the fixed `keep_cols` set; consequently the per-area rent
column can never be the box plot's rent measure (when a rent measure
exists it is the raw rent column) and the Q-Q listing-name lookup always
comes up empty, disabling the highlight search. -/
theorem load_data_cols_fixed_set (files : List (List String)) :
    (∀ c ∈ load_data_cols files, c ∈ keep_cols)
    ∧ boxRentCol (load_data_cols files) ≠ some "전용면적당 월세(만원/㎡)"
    ∧ (boxRentCol (load_data_cols files) = some "월세금(만원)"
        ∨ boxRentCol (load_data_cols files) = none)
    ∧ qqBuildingCol (load_data_cols files) = none := by
  have hsub : ∀ c ∈ load_data_cols files, c ∈ keep_cols := by
    intro c hc
    exact (List.mem_filter.mp hc).1
  have hpa : "전용면적당 월세(만원/㎡)" ∉ load_data_cols files :=
    fun h => absurd (hsub _ h) (by decide)
  have hd1 : "단지명" ∉ load_data_cols files :=
    fun h => absurd (hsub _ h) (by decide)
  have hd2 : "건물명" ∉ load_data_cols files :=
    fun h => absurd (hsub _ h) (by decide)
  refine ⟨hsub, ?_, ?_, ?_⟩
  · by_cases hw : "월세금(만원)" ∈ load_data_cols files <;>
      simp [boxRentCol, hpa, hw]
  · by_cases hw : "월세금(만원)" ∈ load_data_cols files
    · left
      simp [boxRentCol, hpa, hw]
    · right
      simp [boxRentCol, hpa, hw]
  · simp [qqBuildingCol, hd1, hd2]

/-- C3 witness: a source file carrying address, rent and listing-name
columns; the loaded column set keeps the rent column (a member of
`keep_cols`) and still exposes no listing-name column. -/
theorem load_data_cols_fixed_set_witness :
    ("월세금(만원)" ∈ load_data_cols [["시군구", "월세금(만원)", "단지명"]]
      ∧ "월세금(만원)" ∈ keep_cols)
    ∧ qqBuildingCol (load_data_cols [["시군구", "월세금(만원)", "단지명"]])
        = none :=
  ⟨⟨by decide,
    (load_data_cols_fixed_set [["시군구", "월세금(만원)", "단지명"]]).1 _
      (by decide)⟩,
   (load_data_cols_fixed_set [["시군구", "월세금(만원)", "단지명"]]).2.2.2⟩

/-- C7: the scatter preparer is insensitive to per-run entropy (the sample
is pinned by the constant seed 42, so two runs on the same input and cap
coincide), and the returned sample's size is exactly
`min cap (filtered count)`. -/
theorem prep_scatter_deterministic_size (e1 e2 cap : ℕ) (rows : List Row) :
    prep_scatter e1 cap rows = prep_scatter e2 cap rows
    ∧ (prep_scatter e1 cap rows).length
        = min cap (scatterFiltered rows).length := by
  constructor
  · rfl
  · unfold prep_scatter pdSample
    by_cases hc : cap < (scatterFiltered rows).length
    · simp only [hc, if_true, Option.getD_some]
      rw [List.length_take, List.length_append, List.length_drop,
        List.length_take]
      have hrot : 42 % ((scatterFiltered rows).length + 1)
          < (scatterFiltered rows).length + 1 :=
        Nat.mod_lt 42 (by omega)
      omega
    · simp only [hc, if_false]
      omega

/-- C4 (amended): the histogram's "no data" placeholder is decided BEFORE
the 99th-percentile clip: a panel shows the placeholder exactly when the
subset has no positive non-missing rent at all, and a subset whose
positive rents all exceed the shared bound instead proceeds to draw a
histogram over an empty clipped series (no bars, with the weight
computation dividing by the zero retained count). -/
theorem hist_placeholder_before_clip (rents : List (Option ℚ)) (xmax : ℚ) :
    (histPanel rents xmax = HistPanel.placeholder ↔ posOf rents = [])
    ∧ (posOf rents ≠ [] →
        (∀ q ∈ posOf rents, xmax < q) →
        histPanel rents xmax = HistPanel.drawn []) := by
  constructor
  · by_cases h : posOf rents = []
    · simp [histPanel, h]
    · simp [histPanel, h]
  · intro hne hgt
    have hclip : (posOf rents).filter (fun q => q ≤ xmax) = [] :=
      List.filter_eq_nil_iff.mpr
        (fun a ha => by simpa using not_le.mpr (hgt a ha))
    simp [histPanel, hne, hclip]

/-- C4 witness: a subset with one positive rent 100 and bound 1 is not a
placeholder — it draws an empty histogram. -/
theorem hist_placeholder_before_clip_witness :
    posOf [some 100] ≠ []
    ∧ (∀ q ∈ posOf [some 100], (1 : ℚ) < q)
    ∧ histPanel [some 100] 1 = HistPanel.drawn [] :=
  ⟨by decide, by decide,
    (hist_placeholder_before_clip [some 100] 1).2 (by decide) (by decide)⟩

/-- C4 counterexample: on a 100-row table (99 rent-1 rows, one rent-100 row
in district 관악구), the code's shared bound is 99.01, every positive rent
of the 관악구 subset exceeds it, and yet that subset's panel is NOT the
placeholder — it draws an empty histogram. -/
theorem hist_placeholder_after_clip_refuted :
    histXmax df102 (districtSubset df102 "관악구") (districtSubset df102 "중구")
        = some (9901 / 100)
    ∧ (∀ q ∈ posRents (districtSubset df102 "관악구"), (9901 : ℚ) / 100 < q)
    ∧ histPanel ((districtSubset df102 "관악구").map Row.rent) (9901 / 100)
        ≠ HistPanel.placeholder := by
  have hlist : (((df102.filterMap Row.rent) ++
      ((districtSubset df102 "관악구").filterMap Row.rent) ++
      ((districtSubset df102 "중구").filterMap Row.rent)).filter
        (fun q => 0 < q)) = List.replicate 98 1 ++ [1, 100, 100, 1] := by
    decide
  have hp : npPercentile (List.replicate 98 1 ++ [1, 100, 100, 1]) 99
      = 9901 / 100 := by
    refine npPercentile_eval _ (List.replicate 100 1 ++ [100, 100]) 99 102 99
      1 100 (9901 / 100) (by decide) (by decide) ?_ (by decide) (by decide) ?_
    · rw [Int.floor_eq_iff] <;> norm_num
    · norm_num
  refine ⟨?_, ?_, ?_⟩
  · simp only [histXmax, hlist, hp]
    rfl
  · have hpos : posRents (districtSubset df102 "관악구") = [100] := by decide
    intro q hq
    rw [hpos] at hq
    rw [List.mem_singleton.mp hq]
    norm_num
  · have hmapped : (districtSubset df102 "관악구").map Row.rent
        = [some 100] := by decide
    have hposOf : posOf [some 100] = [100] := by decide
    rw [hmapped]
    simp [histPanel, hposOf]

/-- C5: for a subset with at least one retained point after the positive
filter and the 99th-percentile clip, every per-observation weight is 100
divided by the post-clip count, every bar's height is
(in-bin count / retained count) × 100, and the bar heights over the
`bins` equal-width bins sum to exactly 100. -/
theorem hist_weights_percent_sum (rents : List (Option ℚ)) (xmax : ℚ)
    (bins : ℕ) (hd : posClip rents xmax ≠ []) (hb : 1 ≤ bins) :
    (∀ w ∈ histWeights (posClip rents xmax),
        w = 100 / ((posClip rents xmax).length : ℚ))
    ∧ (∀ i, binHeight (posClip rents xmax) xmax bins i
        = (((posClip rents xmax).filter
            (fun x => binIdx xmax bins x == i)).length : ℚ) * 100
          / ((posClip rents xmax).length : ℚ))
    ∧ (∑ i in Finset.range bins, binHeight (posClip rents xmax) xmax bins i)
        = 100 := by
  set data := posClip rents xmax with hdata
  have hlen : data.length ≠ 0 := fun h => hd (List.length_eq_zero.mp h)
  have hlenQ : (data.length : ℚ) ≠ 0 := Nat.cast_ne_zero.mpr hlen
  refine ⟨?_, ?_, ?_⟩
  · intro w hw
    simp only [histWeights, List.mem_map] at hw
    obtain ⟨x, hx, hxe⟩ := hw
    rw [← hxe]
    ring
  · intro i
    rw [binHeight_count]
    ring
  · have hsum : ∑ i in Finset.range bins, binHeight data xmax bins i
        = ∑ i in Finset.range bins,
            ((data.filter (fun x => binIdx xmax bins x == i)).length : ℚ)
              * (1 / (data.length : ℚ) * 100) :=
      Finset.sum_congr rfl (fun i _ => binHeight_count data xmax bins i)
    have hnat := sum_count_bins (binIdx xmax bins) bins data
      (fun x _ => binIdx_lt xmax bins hb x)
    have hcount : (∑ i in Finset.range bins,
        ((data.filter (fun x => binIdx xmax bins x == i)).length : ℚ))
        = (data.length : ℚ) := by
      rw [← Nat.cast_sum, hnat]
    rw [hsum, ← Finset.sum_mul, hcount]
    field_simp

/-- C5 witness: rents 1, 2, 3 with bound 3 and two bins — the bar heights
sum to 100. -/
theorem hist_weights_percent_sum_witness :
    posClip [some 1, some 2, some 3] 3 ≠ []
    ∧ (1 : ℕ) ≤ 2
    ∧ (∑ i in Finset.range 2,
        binHeight (posClip [some 1, some 2, some 3] 3) 3 2 i) = 100 :=
  ⟨by decide, by decide,
    (hist_weights_percent_sum [some 1, some 2, some 3] 3 2 (by decide)
      (by decide)).2.2⟩

/-- C6: on the rows retaining both a construction year and the chosen rent
measure, `add_age_group` computes age = current year − construction year,
labels each row with exactly one of the two buckets (age ≤ 20 → 신·중축,
age > 20 → 구축), keeps exactly the retained rows, and the two bucket
counts sum to the retained count. -/
theorem add_age_group_partition (y : ℚ) (rentOf : Row → Option ℚ)
    (rows : List Row) :
    (add_age_group y rentOf rows).length = (retainedRows rentOf rows).length
    ∧ ((add_age_group y rentOf rows).countP (fun e => e.2.2 == "신·중축"))
        + ((add_age_group y rentOf rows).countP (fun e => e.2.2 == "구축"))
        = (add_age_group y rentOf rows).length
    ∧ ∀ e ∈ add_age_group y rentOf rows,
        (∃ cy, e.1.year = some cy ∧ e.2.1 = y - cy)
        ∧ (e.2.2 = "신·중축" ↔ e.2.1 ≤ 20)
        ∧ (e.2.2 = "구축" ↔ 20 < e.2.1) := by
  refine ⟨by simp [add_age_group], ?_, ?_⟩
  · apply countP_split
    intro e he
    simp only [add_age_group, List.mem_map] at he
    obtain ⟨r, hr, rfl⟩ := he
    by_cases hle : y - r.year.getD 0 ≤ 20
    · left
      simp [hle]
    · right
      simp [hle]
  · intro e he
    simp only [add_age_group, List.mem_map] at he
    obtain ⟨r, hr, rfl⟩ := he
    have hyear : r.year.isSome = true := by
      simp only [retainedRows, List.mem_filter, Bool.and_eq_true] at hr
      exact hr.2.1
    obtain ⟨cy, hcy⟩ := Option.isSome_iff_exists.mp hyear
    refine ⟨⟨cy, hcy, by simp [hcy]⟩, ?_, ?_⟩
    · by_cases hle : y - r.year.getD 0 ≤ 20
      · simp [hle]
      · simp [hle]
    · by_cases hle : y - r.year.getD 0 ≤ 20
      · simp [hle, not_lt.mpr hle]
      · have h20 : 20 < y - r.year.getD 0 := not_le.mp hle
        simp [hle, h20]

/-- C6 witness: the 1990-built rent-50 row in 2024 has age 34 and lands in
the 구축 bucket. -/
theorem add_age_group_partition_witness :
    ((r1990, (34 : ℚ), "구축") ∈ add_age_group 2024 Row.rent [r1990])
    ∧ ((r1990, (34 : ℚ), "구축").2.2 = "구축"
        ↔ (20 : ℚ) < (r1990, (34 : ℚ), "구축").2.1) := by
  have heq : add_age_group 2024 Row.rent [r1990]
      = [(r1990, (34 : ℚ), "구축")] := by
    simp [add_age_group, retainedRows, r1990]
    norm_num
  have hmem : (r1990, (34 : ℚ), "구축") ∈ add_age_group 2024 Row.rent [r1990] := by
    rw [heq]
    exact List.mem_singleton.mpr rfl
  exact ⟨hmem,
    ((add_age_group_partition 2024 Row.rent [r1990]).2.2 _ hmem).2.2⟩

/-- C9: when every existing source file carries the address and the rent
columns, every row of the unified table has a strictly positive parsed
monthly rent and a raw address containing the city marker 서울. -/
theorem load_rows_rent_pos_seoul (files : List SrcFile)
    (hfl : ∀ f ∈ files, f.hasSigungu = true ∧ f.hasRent = true) :
    ∀ r ∈ load_data_rows files,
      (∃ q, r.rent = some q ∧ 0 < q)
      ∧ (∃ s, r.sigungu = some s ∧ strContains s "서울" = true) := by
  intro r hr
  simp only [load_data_rows, List.mem_flatten, List.mem_map] at hr
  obtain ⟨l, ⟨f, hf, rfl⟩, hrl⟩ := hr
  obtain ⟨hsig, hrent⟩ := hfl f hf
  simp only [processFile, hsig, hrent, if_true] at hrl
  obtain ⟨hr1, hp2⟩ := List.mem_filter.mp hrl
  obtain ⟨hr0, hp1⟩ := List.mem_filter.mp hr1
  obtain ⟨src, hsrc, rfl⟩ := List.mem_map.mp hr0
  constructor
  · revert hp2
    cases hq : coerceCell src.rentRaw with
    | none =>
        intro hp2
        simp [hq] at hp2
    | some q =>
        intro hp2
        refine ⟨q, by simp [hq], ?_⟩
        simpa [hq] using hp2
  · exact ⟨src.sigunguRaw, rfl, by simpa using hp1⟩

/-- C9 witness: a single source file with address and rent columns loads to
a row with rent 50 > 0 and a 서울 address. -/
theorem load_rows_rent_pos_seoul_witness :
    (∀ f ∈ [srcFile0], f.hasSigungu = true ∧ f.hasRent = true)
    ∧ ((∃ q, row0.rent = some q ∧ 0 < q)
        ∧ (∃ s, row0.sigungu = some s ∧ strContains s "서울" = true)) :=
  ⟨by decide,
    load_rows_rent_pos_seoul [srcFile0] (by decide) row0 (by decide)⟩
